import Mathlib

/-!
Shallow embedding of the news-briefing pipeline (rss_parser.py, utils.py,
gemini_analyzer.py, github_manager.py) and proofs of the spec's claims.

Python strings are modelled as `String` where only whole-string operations
occur (trim, equality) and as `List Char` where index/search-based
operations occur (`str.find`, slicing, `in`, `replace`, `split`, regex
hashtag extraction).  Machine integers do not occur; Python ints are `Int`.
-/

/-- A news item as built by `parse_rss_feed` (rss_parser.py, lines 52-58):
`title`, `link`, `description`, `source` are strings, `published` is the
resolved timestamp (modelled as seconds, `Int`). -/
structure News where
  title : String
  link : String
  published : Int
  description : String
  source : String
deriving Repr, DecidableEq

/-- Python `str.strip()` with no argument: remove leading and trailing
whitespace (modelled on the character list of the string). -/
def pyStrip (l : List Char) : List Char :=
  ((l.dropWhile Char.isWhitespace).reverse.dropWhile Char.isWhitespace).reverse

/-- The trimmed deduplication key of an item: `news.get("link", "").strip()`
(rss_parser.py, line 120). -/
def linkKey (n : News) : List Char := pyStrip n.link.data

/-- The recursion underlying `remove_duplicate_news` (rss_parser.py,
lines 116-123): walk the list with the `seen_urls` set (modelled as the
list of trimmed urls added so far); keep an item iff its trimmed link is
non-empty and not yet seen. -/
def dedupGo (seen : List (List Char)) : List News → List News
  | [] => []
  | n :: rest =>
    let url := linkKey n
    if url ≠ [] ∧ url ∉ seen then n :: dedupGo (url :: seen) rest
    else dedupGo seen rest

/-- `remove_duplicate_news` (rss_parser.py, lines 106-129): URL-based
duplicate removal starting from an empty seen-set.  The logging and the
`removed_count` computation do not affect the returned list. -/
def remove_duplicate_news (news_list : List News) : List News :=
  dedupGo [] news_list

/-- Convenience: a blank-link item (all other fields arbitrary but fixed). -/
def blankItem : News := ⟨"t", "", 0, "", "s"⟩

/-- A parsed feed entry as seen by `parse_rss_feed` (rss_parser.py, lines
35-58).  `published_parsed`/`updated_parsed` model the optional timestamp
attributes (an `Option Int` of seconds); the textual fields model
`entry.get(...)` with their absence as `none`. -/
structure FeedEntry where
  published_parsed : Option Int
  updated_parsed : Option Int
  title : Option String
  link : Option String
  description : Option String
deriving Repr, DecidableEq

/-- Timestamp resolution of rss_parser.py lines 38-45: prefer
`published_parsed`, then `updated_parsed`, else the current time. -/
def entryTime (now : Int) (e : FeedEntry) : Int :=
  match e.published_parsed with
  | some t => t
  | none =>
    match e.updated_parsed with
    | some t => t
    | none => now

/-- The news item built from a surviving entry (rss_parser.py, lines
52-58); `t` is the resolved timestamp, kept as `Int` in place of the
`isoformat()` string. -/
def mkNewsItem (feedTitle : Option String) (t : Int) (e : FeedEntry) : News :=
  ⟨e.title.getD "제목 없음", e.link.getD "", t, e.description.getD "",
    feedTitle.getD "Unknown"⟩

/-- `parse_rss_feed` (rss_parser.py, lines 32-67) given the already-parsed
feed: `cutoff_time = now - timedelta(hours=max_age_hours)` (hours as 3600
seconds), and an entry is skipped iff its resolved time is strictly below
the cutoff (`if published_time < cutoff_time: continue`). -/
def parse_rss_feed (now max_age_hours : Int) (feedTitle : Option String)
    (entries : List FeedEntry) : List News :=
  let cutoff_time := now - max_age_hours * 3600
  entries.filterMap (fun e =>
    let t := entryTime now e
    if t < cutoff_time then none else some (mkNewsItem feedTitle t e))

/-- The boundary entry: timestamped exactly at `now - 24h` for `now = 86400`. -/
def boundaryEntry : FeedEntry := ⟨some 0, none, some "t", some "l", some "d"⟩

/-- Lexicographic code-point comparison of Python strings
(`a <= b`), modelled on character lists. -/
def pyLe : List Char → List Char → Bool
  | [], _ => true
  | _ :: _, [] => false
  | a :: as, b :: bs => if a = b then pyLe as bs else decide (a < b)

/-- Python `date_str >= cutoff_str` on strings. -/
def pyStrGe (a b : String) : Bool := pyLe b.data a.data

/-- `clean_old_news_data` (utils.py, lines 117-136) given the computed
cutoff string: `cutoff_str` stands for
`(datetime.now() - timedelta(days=days_to_keep)).strftime("%Y-%m-%d")`,
and the day-keyed dict is modelled as an association list built in
iteration order; an entry is kept iff `date_str >= cutoff_str`. -/
def clean_old_news_data {α : Type} (cutoff_str : String)
    (news_data : List (String × α)) : List (String × α) :=
  news_data.filter (fun kv => pyStrGe kv.1 cutoff_str)

/-- Outcome of one iteration of the `write_json` retry loop
(github_manager.py, lines 101-165), as seen at its single exit points:
the whole `try` body succeeds (`ok`), or it raises a `GithubException`
with status 409 (`conflict`), status 403 with a known reset time and a
positive wait (`rateLimitRetry`), status 403 otherwise (`rateLimitFail`),
any other status (`apiError`), or a non-GitHub exception (`exc`). -/
inductive GhAttempt where
  | ok
  | conflict
  | rateLimitRetry
  | rateLimitFail
  | apiError (msg : String)
  | exc (msg : String)
deriving Repr, DecidableEq

/-- How `write_json` terminates: `return True`, a raised exception with
its message, or falling out of the loop (`return False`, line 167).
`outOfFuel` is a model artifact for the unbounded 403-retry path and is
never reached in the scenarios proved below. -/
inductive WriteResult where
  | success
  | raised (msg : String)
  | returnedFalse
  | outOfFuel
deriving Repr, DecidableEq

/-- The `while retry_count < max_retries` loop of
`GithubManager.write_json` (github_manager.py, lines 98-167), with
`max_retries = 3`.  `att i` is the outcome of the `i`-th attempted commit,
`rc` is `retry_count` (an `Int`: the 403 path decrements it, lines
156-158).  A 409 increments `retry_count` and retries after a 1s sleep
while `retry_count < max_retries`, otherwise raises the conflict message
naming the path (line 142). -/
def write_json_go (path : String) (att : Nat → GhAttempt) :
    Nat → Nat → Int → WriteResult
  | 0, _, _ => .outOfFuel
  | fuel + 1, i, rc =>
    if rc < 3 then
      match att i with
      | .ok => .success
      | .conflict =>
        if rc + 1 < 3 then write_json_go path att fuel (i + 1) (rc + 1)
        else .raised ("파일 업데이트 충돌 (" ++ path ++ "): 최대 재시도 횟수 초과")
      | .rateLimitRetry => write_json_go path att fuel (i + 1) (rc - 1)
      | .rateLimitFail => .raised "GitHub API Rate Limit 초과"
      | .apiError m => .raised ("GitHub API 오류 (" ++ path ++ "): " ++ m)
      | .exc m => .raised ("파일 쓰기 오류 (" ++ path ++ "): " ++ m)
    else .returnedFalse

/-- `GithubManager.write_json(file_path, data, ...)`: the serialized
`data` does not influence control flow, so it is carried abstractly.  The
fuel `3` bounds loop iterations; conflict scenarios run at most 3. -/
def write_json {α : Type} (path : String) (_data : α)
    (att : Nat → GhAttempt) : WriteResult :=
  write_json_go path att 3 0 0

/-- The result of `analyze_single_news`: the input item's fields plus the
attached `summary`, `insights` and, on failure, `error`/`error_type`
(gemini_analyzer.py, lines 240-269; the `error_trace` traceback text is
outside the model). -/
structure AnalyzedNews where
  base : News
  summary : String
  insights : String
  error : Option String
  error_type : Option String
deriving Repr, DecidableEq

/-- The retry loop of `analyze_single_news` (gemini_analyzer.py, lines
149-279) with `max_retries = 3`.  `call i` is the outcome of the `i`-th
`generate_content` attempt together with its response handling: `.ok text`
is a successfully extracted non-empty `result_text`; `.error (m, ty)` is
any raised exception with message `m` and type name `ty`.  The successful
response parsing (lines 189-236) is abstracted as `parseResp : text ↦
(summary, insights)` — it is irrelevant to the all-failures claim.  On
failure the code increments `retry_count` and, while `retry_count <
max_retries`, sleeps `min(2 ** retry_count, 10)` seconds (line 252,
recorded in `waits`); after the last failure it returns the item with an
error summary and empty insights (lines 262-269).  Returns
`(item, attempts made, waits)`. -/
def analyzeGo (parseResp : String → String × String) (news : News)
    (call : Nat → Except (String × String) String) :
    Nat → Nat → List Nat → AnalyzedNews × Nat × List Nat
  | 0, attempts, waits =>
    (⟨news, "분석 중 오류가 발생했습니다: 예상치 못한 오류", "",
      some "예상치 못한 오류", some "UnknownError"⟩, attempts, waits)
  | fuel + 1, i, waits =>
    match call i with
    | .ok text =>
      (⟨news, (parseResp text).1, (parseResp text).2, none, none⟩, i + 1, waits)
    | .error e =>
      if i + 1 < 3 then
        analyzeGo parseResp news call fuel (i + 1) (waits ++ [min (2 ^ (i + 1)) 10])
      else
        (⟨news, "분석 중 오류가 발생했습니다: " ++ e.1, "", some e.1, some e.2⟩,
          i + 1, waits)

/-- `analyze_single_news` (gemini_analyzer.py, lines 105-279): run the
retry loop from `retry_count = 0` with no waits recorded; the line-273
fallback return corresponds to fuel exhaustion and is unreachable. -/
def analyze_single_news (parseResp : String → String × String) (news : News)
    (call : Nat → Except (String × String) String) :
    AnalyzedNews × Nat × List Nat :=
  analyzeGo parseResp news call 3 0 []

/-- Helper for `subFind`-style searches: the position of the first
occurrence of `pat` in a list, scanning left to right (base of Python
`str.find`). -/
def subFind (pat : List Char) : List Char → Option Nat
  | [] => if pat = [] then some 0 else none
  | c :: rest =>
    if pat.isPrefixOf (c :: rest) then some 0
    else (subFind pat rest).map (· + 1)

/-- Normalization of a Python index against a length `n`: negative
indices count from the end, and the result is clamped into `[0, n]`. -/
def pyIdx (n : Nat) (x : Int) : Nat :=
  if x < 0 then ((n : Int) + x).toNat else min x.toNat n

/-- Python `s.find(pat, start)`: lowest index `≥ start` at which `pat`
occurs in `s`, else `-1`. -/
def pyFind (s pat : List Char) (start : Int) : Int :=
  let st := pyIdx s.length start
  match subFind pat (s.drop st) with
  | some i => ((st + i : Nat) : Int)
  | none => -1

/-- Python `pat in s` on strings. -/
def listContains (s pat : List Char) : Bool := (subFind pat s).isSome

/-- Python slicing `s[a:b]`. -/
def pySlice (s : List Char) (a b : Int) : List Char :=
  (s.take (pyIdx s.length b)).drop (pyIdx s.length a)

/-- Python slicing `s[a:]`. -/
def pySliceFrom (s : List Char) (a : Int) : List Char :=
  s.drop (pyIdx s.length a)

/-- Python `s.split(sep)` for a single-character separator. -/
def pySplit (sep : Char) : List Char → List (List Char)
  | [] => [[]]
  | c :: rest =>
    if c = sep then [] :: pySplit sep rest
    else
      match pySplit sep rest with
      | p :: ps => (c :: p) :: ps
      | [] => [[c]]

/-- Worker for `pyReplace`: when `skip > 0` that many characters of an
already matched occurrence remain to be discarded; at `skip = 0` try to
match `pat` at the current position (structural recursion on `s`). -/
def replAux (pat repl : List Char) : Nat → List Char → List Char
  | _, [] => []
  | skip + 1, _ :: rest => replAux pat repl skip rest
  | 0, c :: rest =>
    if pat.isPrefixOf (c :: rest) then
      repl ++ replAux pat repl (pat.length - 1) rest
    else c :: replAux pat repl 0 rest

/-- Python `s.replace(pat, repl)`: non-overlapping left-to-right
replacement; the empty-`pat` case never occurs in this codebase and is
modelled as the identity. -/
def pyReplace (pat repl : List Char) (s : List Char) : List Char :=
  if pat = [] then s else replAux pat repl 0 s

/-- A regex `\w` character, restricted to the tokens appearing in this
development (ASCII letters, digits, underscore). -/
def isWordChar (c : Char) : Bool := c.isAlphanum || c = '_'

/-- Worker for `findHashtags`: a single left-to-right scan.  `cur` is
`some revTok` while inside the `\w+` run following a `#` (the collected
characters reversed), `none` otherwise; a run is emitted when it ends
non-empty.  This is Python's `re.findall` scan: after a complete match
the scan resumes at the first character past the matched run. -/
def hashAux : Option (List Char) → List Char → List (List Char)
  | some cur, [] => if cur = [] then [] else [cur.reverse]
  | none, [] => []
  | some cur, c :: rest =>
    if isWordChar c then hashAux (some (c :: cur)) rest
    else
      (if cur = [] then [] else [cur.reverse]) ++
        hashAux (if c = '#' then some [] else none) rest
  | none, c :: rest => hashAux (if c = '#' then some [] else none) rest

/-- Python `re.findall(r"#(\w+)", s)`: every maximal non-empty run of
word characters immediately following a `#`, in order. -/
def findHashtags (l : List Char) : List (List Char) := hashAux none l

/-- The per-section dict built by `parse_top3_news` (gemini_analyzer.py,
lines 514-556): `title` is always present when the item is appended
(line 558 guards on it); the other keys may be absent (`none` /
`related_tech` defaulted). -/
structure TopNewsItem where
  title : List Char
  summary : Option (List Char)
  insights : Option (List Char)
  related_tech : List (List Char)
  link : Option (List Char)
deriving Repr, DecidableEq

/-- The literal `f"## Top {i}:"`. -/
def topPattern (i : Nat) : List Char := "## Top ".data ++ (toString i).data ++ [':']

def summaryMarker : List Char := "**핵심 요약:**".data

def insightsMarker : List Char := "**인사이트:**".data

def techMarker : List Char := "**연관 기술:**".data

/-- Section extraction of `parse_top3_news` (gemini_analyzer.py, lines
499-512) for one `i`: if `"## Top {i}:"` occurs, the section runs from its
first occurrence to the first occurrence of the next header (or the end
for `i = 3` or when the next header is missing). -/
def sectionSlice (md : List Char) (i : Nat) : Option (List Char) :=
  let pattern := topPattern i
  if listContains md pattern then
    let start_idx := pyFind md pattern 0
    let end_idx : Int :=
      if i < 3 then
        let e := pyFind md (topPattern (i + 1)) 0
        if e = -1 then (md.length : Int) else e
      else (md.length : Int)
    some (pySlice md start_idx end_idx)
  else none

/-- The per-section parsing of `parse_top3_news` (gemini_analyzer.py,
lines 514-559): title from the first line with `"## Top"` and all colons
removed then stripped; summary between the Summary marker and the
Insights (else Related-tech) marker; insights between the Insights marker
and the Related-tech marker (else end of section); related tech as the
hashtag tokens after the Related-tech marker; link from the first
original item whose title contains or is contained in the parsed title.
Returns `none` (no appended item) when the parsed title is empty. -/
def parseSection (news_list : List News) (sec : List Char) :
    Option TopNewsItem :=
  let title_match :=
    pyStrip (pyReplace ":".data [] (pyReplace "## Top".data []
      ((pySplit '\n' sec).headD [])))
  let summary : Option (List Char) :=
    if listContains sec summaryMarker then
      let summary_start := pyFind sec summaryMarker 0 + summaryMarker.length
      let e1 := pyFind sec insightsMarker summary_start
      let summary_end :=
        if e1 = -1 then pyFind sec techMarker summary_start else e1
      some (pyStrip (pySlice sec summary_start summary_end))
    else none
  let insights : Option (List Char) :=
    if listContains sec insightsMarker then
      let insights_start := pyFind sec insightsMarker 0 + insightsMarker.length
      let e := pyFind sec techMarker insights_start
      let insights_end := if e = -1 then (sec.length : Int) else e
      some (pyStrip (pySlice sec insights_start insights_end))
    else none
  let related_tech : List (List Char) :=
    if listContains sec techMarker then
      let tech_start := pyFind sec techMarker 0 + techMarker.length
      findHashtags (pyStrip (pySliceFrom sec tech_start))
    else []
  if title_match = [] then none
  else
    let link :=
      (news_list.find? (fun news =>
        listContains news.title.data title_match ||
          listContains title_match news.title.data)).map (fun news => news.link.data)
    some ⟨title_match, summary, insights, related_tech, link⟩

/-- `parse_top3_news` (gemini_analyzer.py, lines 485-561): collect the
(at most three) sections, parse each, and keep those with a title. -/
def parse_top3_news (markdown_text : List Char) (news_list : List News) :
    List TopNewsItem :=
  ([1, 2, 3].filterMap (sectionSlice markdown_text)).filterMap
    (parseSection news_list)

/-- The `{top3_news, markdown}` result of `generate_daily_briefing`. -/
structure Briefing where
  top3_news : List TopNewsItem
  markdown : List Char
deriving Repr, DecidableEq

/-- Python `sep.join(parts)`. -/
def pyJoin (sep : List Char) : List (List Char) → List Char
  | [] => []
  | [x] => x
  | x :: xs => x ++ sep ++ pyJoin sep xs

/-- The fallback markdown of `generate_daily_briefing` (gemini_analyzer.py,
lines 478-482): a heading, the literal item count, and the first (up to)
10 titles as a flat `- `-bulleted list. -/
def fallbackMarkdown (news_list : List News) : List Char :=
  let news_titles :=
    pyJoin "\n".data ((news_list.take 10).map (fun news => "- ".data ++ news.title.data))
  "# 오늘의 IT 주요 뉴스 브리핑\n\n오늘 ".data ++
    (toString news_list.length).data ++
    "개의 뉴스가 수집되었습니다.\n\n## 주요 뉴스\n".data ++ news_titles

/-- `generate_daily_briefing` (gemini_analyzer.py, lines 361-482).  The
single external `generate_content` call (and `response.text` extraction)
is the `apiCall` parameter: `.ok text` is the markdown it returned,
`.error` any raised exception.  Empty input short-circuits to the canned
result; an API failure is caught and produces the fallback markdown with
`top3_news = []`. -/
def generate_daily_briefing (apiCall : Except String (List Char))
    (news_list : List News) : Briefing :=
  if news_list.isEmpty then ⟨[], "오늘 수집된 뉴스가 없습니다.".data⟩
  else
    match apiCall with
    | .ok result_text => ⟨parse_top3_news result_text news_list, result_text⟩
    | .error _ => ⟨[], fallbackMarkdown news_list⟩

/-- A concrete well-formed three-section markdown (used for the C2
counterexample below). -/
def mdEx : List Char :=
  ("## Top 1: Alpha\n\n**핵심 요약:**\nS1\n\n**인사이트:**\nI1\n\n" ++
   "**연관 기술:**\n#AI #ML\n\n" ++
   "## Top 2: Beta\n\n**핵심 요약:**\nS2\n\n**인사이트:**\nI2\n\n" ++
   "**연관 기술:**\n#DB\n\n" ++
   "## Top 3: Gamma\n\n**핵심 요약:**\nS3\n\n**인사이트:**\nI3\n\n" ++
   "**연관 기술:**\n#Cloud\n").data

/-- No occurrence of `pat` starts inside `x`, whatever follows `x`. -/
def NoStrad (pat x : List Char) : Prop :=
  ∀ (y : List Char), ∀ i < x.length, ¬ pat <+: ((x ++ y).drop i)

/-- Decidable sufficient condition for `NoStrad` between two concrete
lists: every candidate start has a mismatch strictly inside `x`. -/
def mismatchB (pat x : List Char) : Bool :=
  (List.range x.length).all (fun i =>
    (List.range pat.length).any (fun j =>
      decide (i + j < x.length) && decide (x[i+j]? ≠ pat[j]?)))

/-- A string is unchanged by `strip`: no leading or trailing whitespace. -/
def StripStable (l : List Char) : Prop :=
  l.dropWhile Char.isWhitespace = l ∧
    l.reverse.dropWhile Char.isWhitespace = l.reverse

/-- Free text safe for the markdown construction: free of newlines,
hashes and asterisks. -/
def NoSpecials (l : List Char) : Prop := ∀ c ∈ l, c ≠ '\n' ∧ c ≠ '#' ∧ c ≠ '*'

def SafeText (l : List Char) : Prop := NoSpecials l ∧ StripStable l

/-- A safe constructed title: safe text, non-empty, colon-free. -/
def SafeTitle (l : List Char) : Prop := SafeText l ∧ l ≠ [] ∧ ∀ c ∈ l, c ≠ ':'

/-- Safe hashtag tokens: non-empty and made of word characters. -/
def SafeTags (g : List (List Char)) : Prop :=
  ∀ tag ∈ g, tag ≠ [] ∧ ∀ c ∈ tag, isWordChar c = true

/-- The `#tag1 #tag2 ...` line for the Related-tech block. -/
def hashTagLine (tags : List (List Char)) : List Char :=
  pyJoin " ".data (tags.map (fun tag => '#' :: tag))

/-- One well-formed `## Top k:` section exactly in the output format the
briefing prompt requests (gemini_analyzer.py, lines 415-424), with `dg`
the digit string of `k`. -/
def mkSection (dg t s i : List Char) (tags : List (List Char)) : List Char :=
  "## Top ".data ++ dg ++ [':'] ++ (' ' :: t) ++ "\n\n".data ++
    summaryMarker ++ ('\n' :: s) ++ "\n\n".data ++
    insightsMarker ++ ('\n' :: i) ++ "\n\n".data ++
    techMarker ++ ('\n' :: hashTagLine tags) ++ "\n\n".data

/-- A markdown document of exactly three well-formed sections. -/
def mkMarkdown (t1 s1 i1 : List Char) (g1 : List (List Char))
    (t2 s2 i2 : List Char) (g2 : List (List Char))
    (t3 s3 i3 : List Char) (g3 : List (List Char)) : List Char :=
  mkSection "1".data t1 s1 i1 g1 ++ mkSection "2".data t2 s2 i2 g2 ++
    mkSection "3".data t3 s3 i3 g3

/-- The part of a section before the Summary marker. -/
def secHead (dg t : List Char) : List Char :=
  ("## Top ".data ++ dg ++ [':']) ++ ((' ' :: t) ++ "\n\n".data)

/-- A block value as it sits in a section: newline before, blank line after. -/
def wrapNL (x : List Char) : List Char := ('\n' :: x) ++ "\n\n".data

instance (l : List Char) : Decidable (NoSpecials l) :=
  inferInstanceAs (Decidable (∀ c ∈ l, c ≠ '\n' ∧ c ≠ '#' ∧ c ≠ '*'))

instance (l : List Char) : Decidable (StripStable l) :=
  inferInstanceAs (Decidable (l.dropWhile Char.isWhitespace = l ∧
    l.reverse.dropWhile Char.isWhitespace = l.reverse))

instance (l : List Char) : Decidable (SafeText l) :=
  inferInstanceAs (Decidable (NoSpecials l ∧ StripStable l))

instance (l : List Char) : Decidable (SafeTitle l) :=
  inferInstanceAs (Decidable (SafeText l ∧ l ≠ [] ∧ ∀ c ∈ l, c ≠ ':'))

instance (g : List (List Char)) : Decidable (SafeTags g) :=
  inferInstanceAs (Decidable (∀ tag ∈ g, tag ≠ [] ∧
    ∀ c ∈ tag, isWordChar c = true))

example : remove_duplicate_news (List.replicate 5 blankItem) = [] := by decide

example :
    remove_duplicate_news [⟨"a", "u", 0, "", ""⟩, ⟨"b", "u", 1, "", ""⟩] =
      [⟨"a", "u", 0, "", ""⟩] := by decide

lemma dedupGo_sublist (seen : List (List Char)) (l : List News) :
    (dedupGo seen l).Sublist l := by
  induction l generalizing seen with
  | nil => simp [dedupGo]
  | cons n rest ih =>
    simp only [dedupGo]
    split
    · exact (ih _).cons₂ n
    · exact (ih _).cons n

lemma mem_dedupGo_key_ne_nil (seen : List (List Char)) (l : List News) :
    ∀ n ∈ dedupGo seen l, linkKey n ≠ [] := by
  induction l generalizing seen with
  | nil => simp [dedupGo]
  | cons m rest ih =>
    simp only [dedupGo]
    split
    · rename_i h
      intro n hn
      rcases List.mem_cons.mp hn with rfl | hn
      · exact h.1
      · exact ih _ n hn
    · exact ih seen

lemma mem_dedupGo_not_seen (seen : List (List Char)) (l : List News) :
    ∀ n ∈ dedupGo seen l, linkKey n ∉ seen := by
  induction l generalizing seen with
  | nil => simp [dedupGo]
  | cons m rest ih =>
    simp only [dedupGo]
    split
    · rename_i h
      intro n hn
      rcases List.mem_cons.mp hn with rfl | hn
      · exact h.2
      · intro hmem
        exact ih _ n hn (List.mem_cons_of_mem _ hmem)
    · exact ih seen

lemma nodup_map_linkKey_dedupGo (seen : List (List Char)) (l : List News) :
    ((dedupGo seen l).map linkKey).Nodup := by
  induction l generalizing seen with
  | nil => simp [dedupGo]
  | cons m rest ih =>
    simp only [dedupGo]
    split
    · rename_i h
      refine List.nodup_cons.mpr ⟨?_, ih _⟩
      intro hmem
      rcases List.mem_map.mp hmem with ⟨n, hn, hkey⟩
      exact mem_dedupGo_not_seen _ _ n hn (hkey ▸ List.mem_cons_self _ _)
    · exact ih seen

lemma dedupGo_eq_self (seen : List (List Char)) (l : List News)
    (h1 : ∀ n ∈ l, linkKey n ≠ []) (h2 : (l.map linkKey).Nodup)
    (h3 : ∀ n ∈ l, linkKey n ∉ seen) : dedupGo seen l = l := by
  induction l generalizing seen with
  | nil => simp [dedupGo]
  | cons m rest ih =>
    have hm : linkKey m ≠ [] := h1 m (List.mem_cons_self _ _)
    have hms : linkKey m ∉ seen := h3 m (List.mem_cons_self _ _)
    simp only [dedupGo, if_pos (And.intro hm hms)]
    congr 1
    refine ih _ (fun n hn => h1 n (List.mem_cons_of_mem _ hn))
      ((List.nodup_cons.mp (by simpa using h2)).2) ?_
    intro n hn hmem
    rcases List.mem_cons.mp hmem with hk | hk
    · exact (List.nodup_cons.mp (by simpa using h2)).1 (hk ▸ List.mem_map_of_mem linkKey hn)
    · exact h3 n (List.mem_cons_of_mem _ hn) hk

lemma dedupGo_first_occurrence (seen : List (List Char)) (l₁ l₂ : List News)
    (n : News) (hk : linkKey n ≠ []) (hs : linkKey n ∉ seen)
    (hfirst : ∀ m ∈ l₁, linkKey m ≠ linkKey n) :
    n ∈ dedupGo seen (l₁ ++ n :: l₂) := by
  induction l₁ generalizing seen with
  | nil => simp [dedupGo, if_pos (And.intro hk hs)]
  | cons m rest ih =>
    simp only [List.cons_append, dedupGo]
    split
    · refine List.mem_cons_of_mem _ (ih _ ?_ ?_)
      · intro hmem
        rcases List.mem_cons.mp hmem with hk' | hk'
        · exact hfirst m (List.mem_cons_self _ _) hk'.symm
        · exact hs hk'
      · exact fun m' hm' => hfirst m' (List.mem_cons_of_mem _ hm')
    · exact ih seen hs (fun m' hm' => hfirst m' (List.mem_cons_of_mem _ hm'))

lemma dedupGo_all_blank (seen : List (List Char)) (l : List News)
    (h : ∀ n ∈ l, linkKey n = []) : dedupGo seen l = [] := by
  induction l generalizing seen with
  | nil => simp [dedupGo]
  | cons m rest ih =>
    have hm : linkKey m = [] := h m (List.mem_cons_self _ _)
    simp only [dedupGo]
    rw [if_neg (by simp [hm])]
    exact ih seen (fun n hn => h n (List.mem_cons_of_mem _ hn))

/-- C1 counterexample: contrary to the claim, a list of 5 items all with
empty `link` yields 0 items after `remove_duplicate_news`, not 5: the code
keeps an item only when its trimmed link is non-empty
(rss_parser.py, line 121, `if url and url not in seen_urls`). -/
theorem C1_counterexample :
    remove_duplicate_news (List.replicate 5 blankItem) = [] ∧
      (remove_duplicate_news (List.replicate 5 blankItem)).length ≠ 5 := by
  constructor
  · decide
  · decide

/-- C1 (amended): items whose link is empty or blank after trimming are
always *dropped* by `remove_duplicate_news`; in particular a list of items
all with blank links dedupes to the empty list, and every item of the
output has a non-blank trimmed link. -/
theorem C1_blank_links_dropped (l : List News) :
    ((∀ n ∈ l, linkKey n = []) → remove_duplicate_news l = []) ∧
      (∀ n ∈ remove_duplicate_news l, linkKey n ≠ []) := by
  exact ⟨fun h => dedupGo_all_blank [] l h, mem_dedupGo_key_ne_nil [] l⟩

/-- C1 witness: instantiating the amended claim at the 5-blank-item list. -/
theorem C1_blank_links_dropped_witness :
    remove_duplicate_news (List.replicate 5 blankItem) = [] :=
  (C1_blank_links_dropped (List.replicate 5 blankItem)).1 (by decide)

/-- C4: `remove_duplicate_news` is idempotent and never lengthens its
input. -/
theorem C4_dedupe_idempotent_and_shrinking (l : List News) :
    remove_duplicate_news (remove_duplicate_news l) = remove_duplicate_news l ∧
      (remove_duplicate_news l).length ≤ l.length := by
  constructor
  · exact dedupGo_eq_self [] _ (mem_dedupGo_key_ne_nil [] l)
      (nodup_map_linkKey_dedupGo [] l) (by simp)
  · exact (dedupGo_sublist [] l).length_le

/-- C10: the output of `remove_duplicate_news` is a subsequence of the
input, all its items have a non-blank trimmed link, those trimmed links
are pairwise distinct, and the first occurrence of every non-blank link
is preserved. -/
theorem C10_dedupe_invariants (l : List News) :
    (remove_duplicate_news l).Sublist l ∧
      (∀ n ∈ remove_duplicate_news l, linkKey n ≠ []) ∧
      ((remove_duplicate_news l).map linkKey).Nodup ∧
      (∀ l₁ l₂ (n : News), l = l₁ ++ n :: l₂ → linkKey n ≠ [] →
        (∀ m ∈ l₁, linkKey m ≠ linkKey n) → n ∈ remove_duplicate_news l) := by
  refine ⟨dedupGo_sublist [] l, mem_dedupGo_key_ne_nil [] l,
    nodup_map_linkKey_dedupGo [] l, ?_⟩
  intro l₁ l₂ n hl hk hfirst
  subst hl
  exact dedupGo_first_occurrence [] l₁ l₂ n hk (by simp) hfirst

/-- C10 witness: on a concrete two-item list with distinct links, the
first-occurrence clause puts the head item in the output. -/
theorem C10_dedupe_invariants_witness :
    (⟨"a", "u", 0, "", ""⟩ : News) ∈
      remove_duplicate_news [⟨"a", "u", 0, "", ""⟩, ⟨"b", "v", 1, "", ""⟩] :=
  (C10_dedupe_invariants [⟨"a", "u", 0, "", ""⟩, ⟨"b", "v", 1, "", ""⟩]).2.2.2
    [] [⟨"b", "v", 1, "", ""⟩] ⟨"a", "u", 0, "", ""⟩ (by decide) (by decide)
    (by decide)

/-- C3 counterexample: an entry timestamped exactly at `now - maxAgeHours`
is *included* by `parse_rss_feed` (the code skips only entries strictly
older than the cutoff), contradicting the claimed exclusion: with
`now = 86400` and `maxAgeHours = 24` the cutoff is `0` and the entry at
`0` survives. -/
theorem C3_counterexample :
    parse_rss_feed 86400 24 (some "F") [boundaryEntry] =
      [mkNewsItem (some "F") 0 boundaryEntry] ∧
      (parse_rss_feed 86400 24 (some "F") [boundaryEntry]).length ≠ 0 := by
  constructor
  · decide
  · decide

/-- C3 (amended): an entry's item is in the result of `parse_rss_feed` iff
its resolved timestamp is `≥ now - maxAgeHours`; in particular an entry
exactly at the cutoff is included and any strictly later entry is
included, while strictly older entries are excluded. -/
theorem C3_recency_filter_boundary (now h : Int) (ft : Option String)
    (entries : List FeedEntry) (e : FeedEntry) (he : e ∈ entries) :
    mkNewsItem ft (entryTime now e) e ∈ parse_rss_feed now h ft entries ↔
      now - h * 3600 ≤ entryTime now e := by
  constructor
  · intro hmem
    rcases List.mem_filterMap.mp hmem with ⟨e', _, hcond⟩
    by_cases hlt : entryTime now e' < now - h * 3600
    · simp [hlt] at hcond
    · have hpub : entryTime now e' = entryTime now e := by
        have := congrArg News.published (by simpa [hlt] using hcond)
        simpa [mkNewsItem] using this
      omega
  · intro hle
    refine List.mem_filterMap.mpr ⟨e, he, ?_⟩
    rw [if_neg (by omega)]

/-- C3 witness: the boundary entry's item is in the output, via the
amended theorem at the concrete boundary input. -/
theorem C3_recency_filter_boundary_witness :
    mkNewsItem (some "F") (entryTime 86400 boundaryEntry) boundaryEntry ∈
      parse_rss_feed 86400 24 (some "F") [boundaryEntry] :=
  (C3_recency_filter_boundary 86400 24 (some "F") [boundaryEntry]
    boundaryEntry (by decide)).mpr (by decide)

/-- C5: pruning keeps exactly the entries whose date key is `≥` the cutoff
day (30 days before today); concretely, with today = 2026-10-12 and
entries at T-40, T-31, T-30 and T-1, exactly the T-30 and T-1 entries
remain. -/
theorem C5_retention_pruning :
    (∀ (α : Type) (cutoff : String) (d : List (String × α)) (kv : String × α),
      kv ∈ clean_old_news_data cutoff d ↔ kv ∈ d ∧ pyStrGe kv.1 cutoff = true) ∧
      clean_old_news_data "2026-09-12"
        [("2026-09-02", 0), ("2026-09-11", 1), ("2026-09-12", 2), ("2026-10-11", 3)] =
        [("2026-09-12", 2), ("2026-10-11", 3)] := by
  constructor
  · intro α cutoff d kv
    simp [clean_old_news_data, List.mem_filter]
  · decide

/-- C7: a write hitting a 409 conflict on the first two attempts and
succeeding on the third returns `True`; a write hitting 409 on all three
attempts raises the conflict error naming the path. -/
theorem C7_conflict_retry {α : Type} (path : String) (data : α) :
    write_json path data (fun i => if i < 2 then .conflict else .ok) =
        .success ∧
      write_json path data (fun _ => .conflict) =
        .raised ("파일 업데이트 충돌 (" ++ path ++ "): 최대 재시도 횟수 초과") := by
  constructor
  · rfl
  · rfl

/-- C7 sanity check on the raised message: it names the path. -/
example :
    write_json "data/news.json" (0 : Nat) (fun _ => .conflict) =
      .raised "파일 업데이트 충돌 (data/news.json): 최대 재시도 횟수 초과" := by decide

/-- C8: if every API call raises, `analyze_single_news` makes exactly 3
attempts, waits `min(2^1,10) = 2` then `min(2^2,10) = 4` seconds after the
first and second failures, and returns the item augmented with an error
summary and empty insights instead of raising; the error recorded is the
last (third) failure's. -/
theorem C8_retry_backoff_and_error_fallback
    (parseResp : String → String × String) (news : News)
    (errs : Nat → String × String) :
    analyze_single_news parseResp news (fun k => .error (errs k)) =
      (⟨news, "분석 중 오류가 발생했습니다: " ++ (errs 2).1, "",
        some (errs 2).1, some (errs 2).2⟩, 3, [2, 4]) := by
  rfl

example : findHashtags "#AI #ML_ops x#3d".data = ["AI".data, "ML_ops".data, "3d".data] := by decide

example : pySplit '\n' "ab\ncd".data = ["ab".data, "cd".data] := by decide

example : pyReplace "## Top".data [] "## Top 1: T".data = " 1: T".data := by decide

example : pyFind "abcabc".data "bc".data 2 = 4 := by decide

example : pySlice "abcdef".data 2 (-1) = "cde".data := by decide

/-- C9: `parse_top3_news` never returns more than 3 items, and therefore
the `top3_news` of every `generate_daily_briefing` result has length at
most 3. -/
theorem C9_top3_length_le_three :
    (∀ (md : List Char) (nl : List News), (parse_top3_news md nl).length ≤ 3) ∧
      (∀ (call : Except String (List Char)) (nl : List News),
        (generate_daily_briefing call nl).top3_news.length ≤ 3) := by
  have hp : ∀ (md : List Char) (nl : List News),
      (parse_top3_news md nl).length ≤ 3 := by
    intro md nl
    calc (parse_top3_news md nl).length
        ≤ ([1, 2, 3].filterMap (sectionSlice md)).length :=
          List.length_filterMap_le _ _
      _ ≤ ([1, 2, 3] : List Nat).length := List.length_filterMap_le _ _
      _ = 3 := rfl
  refine ⟨hp, ?_⟩
  intro call nl
  unfold generate_daily_briefing
  split
  · simp
  · match call with
    | .ok text => simpa using hp text nl
    | .error e => simp

example :
    parse_top3_news mdEx [] =
      [⟨"1 Alpha".data, some "S1".data, some "I1".data, ["AI".data, "ML".data], none⟩,
       ⟨"2 Beta".data, some "S2".data, some "I2".data, ["DB".data], none⟩,
       ⟨"3 Gamma".data, some "S3".data, some "I3".data, ["Cloud".data], none⟩] := by
  set_option maxRecDepth 10000 in decide

lemma subFind_isSome_cons (pat : List Char) (c : Char) (rest : List Char)
    (h : (subFind pat rest).isSome) : (subFind pat (c :: rest)).isSome := by
  simp only [subFind]
  split
  · simp
  · simpa using h

lemma subFind_isSome_of_prefix (pat s : List Char) (h : pat <+: s) :
    (subFind pat s).isSome := by
  cases s with
  | nil =>
    have : pat = [] := List.prefix_nil.mp h
    simp [subFind, this]
  | cons c rest =>
    simp only [subFind]
    rw [if_pos (List.isPrefixOf_iff_prefix.mpr h)]
    simp

lemma listContains_of_infix (pat s : List Char) (h : pat <:+: s) :
    listContains s pat = true := by
  rcases h with ⟨a, b, rfl⟩
  induction a with
  | nil =>
    simpa [listContains] using subFind_isSome_of_prefix pat (pat ++ b) (List.prefix_append _ _)
  | cons c a ih =>
    simpa [listContains] using subFind_isSome_cons pat c _ (by simpa [listContains] using ih)

lemma infix_pyJoin_of_mem (sep x : List Char) (parts : List (List Char))
    (h : x ∈ parts) : x <:+: pyJoin sep parts := by
  induction parts with
  | nil => simp at h
  | cons p ps ih =>
    rcases List.mem_cons.mp h with rfl | hx
    · cases ps with
      | nil => simp [pyJoin]
      | cons q qs => exact ⟨[], sep ++ pyJoin sep (q :: qs), by simp [pyJoin]⟩
    · cases ps with
      | nil => simp at hx
      | cons q qs =>
        rcases ih hx with ⟨a, b, hab⟩
        exact ⟨p ++ sep ++ a, b, by simp [pyJoin, ← hab]⟩

/-- C6: on a non-empty input whose summarization call raises,
`generate_daily_briefing` returns `top3_news = []` with the fallback
markdown, which contains the literal item count and a `- `-bulleted line
for each of the first `min(10, n)` titles. -/
theorem C6_briefing_fallback (nl : List News) (e : String) (h : nl ≠ []) :
    generate_daily_briefing (.error e) nl = ⟨[], fallbackMarkdown nl⟩ ∧
      listContains (fallbackMarkdown nl) (toString nl.length).data = true ∧
      ∀ n ∈ nl.take 10,
        listContains (fallbackMarkdown nl) ("- ".data ++ n.title.data) = true := by
  have hfb : fallbackMarkdown nl =
      "# 오늘의 IT 주요 뉴스 브리핑\n\n오늘 ".data ++
        ((toString nl.length).data ++
          ("개의 뉴스가 수집되었습니다.\n\n## 주요 뉴스\n".data ++
            pyJoin "\n".data
              ((nl.take 10).map (fun news => "- ".data ++ news.title.data)))) := by
    simp [fallbackMarkdown]
  refine ⟨?_, ?_, ?_⟩
  · simp [generate_daily_briefing, h]
  · refine listContains_of_infix _ _ ?_
    rw [hfb]
    exact ⟨"# 오늘의 IT 주요 뉴스 브리핑\n\n오늘 ".data,
      "개의 뉴스가 수집되었습니다.\n\n## 주요 뉴스\n".data ++
        pyJoin "\n".data
          ((nl.take 10).map (fun news => "- ".data ++ news.title.data)),
      by simp⟩
  · intro n hn
    refine listContains_of_infix _ _ ?_
    have hmem : "- ".data ++ n.title.data ∈
        (nl.take 10).map (fun news => "- ".data ++ news.title.data) :=
      List.mem_map_of_mem _ hn
    rcases infix_pyJoin_of_mem "\n".data _ _ hmem with ⟨a, b, hab⟩
    rw [hfb, ← hab]
    exact ⟨"# 오늘의 IT 주요 뉴스 브리핑\n\n오늘 ".data ++
      (toString nl.length).data ++
      "개의 뉴스가 수집되었습니다.\n\n## 주요 뉴스\n".data ++ a, b, by simp⟩

/-- C6 witness: the fallback at a concrete one-item list. -/
theorem C6_briefing_fallback_witness :
    generate_daily_briefing (.error "boom") [⟨"T", "l", 0, "d", "s"⟩] =
        ⟨[], fallbackMarkdown [⟨"T", "l", 0, "d", "s"⟩]⟩ ∧
      listContains (fallbackMarkdown [⟨"T", "l", 0, "d", "s"⟩]) (toString 1).data = true :=
  ⟨(C6_briefing_fallback [⟨"T", "l", 0, "d", "s"⟩] "boom" (by decide)).1,
    (C6_briefing_fallback [⟨"T", "l", 0, "d", "s"⟩] "boom" (by decide)).2.1⟩

lemma subFind_of_prefix (pat s : List Char) (h : pat <+: s) :
    subFind pat s = some 0 := by
  cases s with
  | nil => simp [subFind, List.prefix_nil.mp h]
  | cons c rest =>
    simp only [subFind]
    rw [if_pos (List.isPrefixOf_iff_prefix.mpr h)]

lemma noStrad_tail (pat : List Char) (c : Char) (x : List Char)
    (h : NoStrad pat (c :: x)) : NoStrad pat x := by
  intro y i hi
  have := h y (i + 1) (by simpa using Nat.succ_lt_succ hi)
  simpa using this

lemma subFind_append_nostrad (pat x y : List Char) (h : NoStrad pat x) :
    subFind pat (x ++ y) = (subFind pat y).map (· + x.length) := by
  induction x with
  | nil =>
    cases hy : subFind pat y <;> simp [hy]
  | cons c x' ih =>
    have h0 : ¬ pat <+: (c :: (x' ++ y)) := by
      have := h y 0 (by simp)
      simpa using this
    simp only [List.cons_append, subFind]
    rw [if_neg (by simpa using fun hp => h0 (List.isPrefixOf_iff_prefix.mp hp))]
    simp only [List.append_eq]
    rw [ih (noStrad_tail pat c x' h)]
    cases hy : subFind pat y <;> simp [hy, Nat.add_assoc]

lemma noStrad_append (pat a b : List Char) (h1 : NoStrad pat a)
    (h2 : NoStrad pat b) : NoStrad pat (a ++ b) := by
  intro y i hi
  rcases Nat.lt_or_ge i a.length with hlt | hge
  · have := h1 (b ++ y) i hlt
    simpa [List.append_assoc] using this
  · obtain ⟨j, rfl⟩ : ∃ j, i = a.length + j := ⟨i - a.length, by omega⟩
    have hj : j < b.length := by simpa using hi
    have := h2 y j hj
    rw [List.append_assoc, List.drop_append]
    exact this

lemma noStrad_nil (pat : List Char) : NoStrad pat [] := by
  intro y i hi
  simp at hi

lemma noStrad_cons (d : Char) (p' : List Char) (c : Char) (x : List Char)
    (hdc : d ≠ c) (h : NoStrad (d :: p') x) : NoStrad (d :: p') (c :: x) := by
  intro y i hi
  cases i with
  | zero =>
    intro hp
    exact hdc (List.cons_prefix_cons.mp (by simpa using hp)).1
  | succ j =>
    have := h y j (by simpa using Nat.lt_of_succ_lt_succ hi)
    simpa using this

lemma noStrad_of_head_notMem (d : Char) (p' x : List Char) (hd : d ∉ x) :
    NoStrad (d :: p') x := by
  induction x with
  | nil => exact noStrad_nil _
  | cons c x' ih =>
    refine noStrad_cons d p' c x' (fun hdc => hd (hdc ▸ List.mem_cons_self _ _)) ?_
    exact ih (fun hmem => hd (List.mem_cons_of_mem _ hmem))

lemma noStrad_of_mismatchB (pat x : List Char) (h : mismatchB pat x = true) :
    NoStrad pat x := by
  intro y i hi hp
  rcases hp with ⟨t, ht⟩
  have hall := List.all_eq_true.mp h i (List.mem_range.mpr hi)
  have hex : ∃ j, j < pat.length ∧ (i + j < x.length ∧ x[i+j]? ≠ pat[j]?) := by
    simpa using hall
  rcases hex with ⟨j, hjlt, hij, hne⟩
  apply hne
  calc x[i+j]? = ((x ++ y))[i+j]? := (List.getElem?_append_left hij).symm
    _ = ((x ++ y).drop i)[j]? := (List.getElem?_drop _ i j).symm
    _ = (pat ++ t)[j]? := by rw [ht]
    _ = pat[j]? := List.getElem?_append_left hjlt

lemma wordChar_not_ws (c : Char) (h : isWordChar c = true) :
    c.isWhitespace = false := by
  by_contra h'
  have hws : c.isWhitespace = true := by
    cases hw : c.isWhitespace
    · exact absurd hw h'
    · rfl
  have hcases := hws
  simp only [Char.isWhitespace, Bool.or_eq_true, decide_eq_true_eq] at hcases
  rcases hcases with ((rfl | rfl) | rfl) | rfl <;> simp [isWordChar,
    Char.isAlphanum, Char.isAlpha, Char.isUpper, Char.isLower,
    Char.isDigit] at h

lemma len_dropWhile_le (p : Char → Bool) (l : List Char) :
    (l.dropWhile p).length ≤ l.length := by
  induction l with
  | nil => simp [List.dropWhile]
  | cons c rest ih =>
    simp only [List.dropWhile]
    split
    · exact Nat.le_succ_of_le ih
    · simp

lemma takeWhile_append_all (p : Char → Bool) (a b : List Char)
    (h : ∀ c ∈ a, p c = true) :
    (a ++ b).takeWhile p = a ++ b.takeWhile p := by
  induction a with
  | nil => simp
  | cons c a' ih =>
    simp [List.takeWhile_cons, h c (List.mem_cons_self _ _),
      ih (fun d hd => h d (List.mem_cons_of_mem _ hd))]

lemma dropWhile_append_all (p : Char → Bool) (a b : List Char)
    (h : ∀ c ∈ a, p c = true) :
    (a ++ b).dropWhile p = b.dropWhile p := by
  induction a with
  | nil => simp
  | cons c a' ih =>
    simp only [List.cons_append, List.dropWhile_cons,
      h c (List.mem_cons_self _ _), if_true]
    exact ih (fun d hd => h d (List.mem_cons_of_mem _ hd))

lemma pyStrip_wrap (a s b : List Char)
    (ha : ∀ c ∈ a, c.isWhitespace = true) (hb : ∀ c ∈ b, c.isWhitespace = true)
    (hs : StripStable s) : pyStrip (a ++ s ++ b) = s := by
  unfold pyStrip
  rw [List.append_assoc, dropWhile_append_all _ a (s ++ b) ha]
  cases s with
  | nil =>
    rw [List.nil_append, List.dropWhile_eq_nil_iff.mpr (fun c hc => hb c hc)]
    simp
  | cons c s' =>
    have hc : c.isWhitespace = false := by
      cases hcw : c.isWhitespace
      · rfl
      · exfalso
        have h1 := hs.1
        rw [List.dropWhile_cons, if_pos hcw] at h1
        have := len_dropWhile_le Char.isWhitespace s'
        rw [h1] at this
        simp at this
    rw [List.cons_append, List.dropWhile_cons, if_neg (by simp [hc]),
      ← List.cons_append, List.reverse_append,
      dropWhile_append_all _ b.reverse _ (by simpa using hb), hs.2,
      List.reverse_reverse]

lemma pySplit_eq_takeWhile_cons (sep : Char) (l : List Char) :
    ∃ ps, pySplit sep l = l.takeWhile (· ≠ sep) :: ps := by
  induction l with
  | nil => exact ⟨[], rfl⟩
  | cons c rest ih =>
    by_cases hc : c = sep
    · subst hc
      refine ⟨pySplit c rest, ?_⟩
      simp [pySplit, List.takeWhile_cons]
    · rcases ih with ⟨ps, hps⟩
      refine ⟨ps, ?_⟩
      simp only [pySplit, if_neg hc, hps, List.takeWhile_cons]
      simp [hc]

lemma pySplit_headD (sep : Char) (l : List Char) :
    (pySplit sep l).headD [] = l.takeWhile (· ≠ sep) := by
  rcases pySplit_eq_takeWhile_cons sep l with ⟨ps, hps⟩
  simp [hps]

lemma replAux_cons_ne (d : Char) (p' repl : List Char) (c : Char)
    (x : List Char) (hdc : d ≠ c) :
    replAux (d :: p') repl 0 (c :: x) = c :: replAux (d :: p') repl 0 x := by
  simp only [replAux]
  rw [if_neg]
  simp only [List.isPrefixOf, Bool.and_eq_true, beq_iff_eq]
  exact fun h => hdc h.1

lemma replAux_notMem (d : Char) (p' repl x : List Char) (hd : d ∉ x) :
    replAux (d :: p') repl 0 x = x := by
  induction x with
  | nil => rfl
  | cons c x' ih =>
    rw [replAux_cons_ne d p' repl c x'
      (fun hdc => hd (hdc ▸ List.mem_cons_self _ _))]
    rw [ih (fun hmem => hd (List.mem_cons_of_mem _ hmem))]

lemma replAux_append_notMem (d : Char) (p' repl a x : List Char)
    (hd : d ∉ a) :
    replAux (d :: p') repl 0 (a ++ x) = a ++ replAux (d :: p') repl 0 x := by
  induction a with
  | nil => rfl
  | cons c a' ih =>
    rw [List.cons_append, replAux_cons_ne d p' repl c _
      (fun hdc => hd (hdc ▸ List.mem_cons_self _ _))]
    rw [ih (fun hmem => hd (List.mem_cons_of_mem _ hmem))]
    simp

lemma hashAux_collect (tok : List Char) (hw : ∀ c ∈ tok, isWordChar c = true) :
    ∀ (cur z : List Char),
      hashAux (some cur) (tok ++ z) = hashAux (some (tok.reverse ++ cur)) z := by
  induction tok with
  | nil => intro cur z; simp
  | cons c tok' ih =>
    intro cur z
    have hc : isWordChar c = true := hw c (List.mem_cons_self _ _)
    simp only [List.cons_append, hashAux, hc, if_true]
    simp only [List.append_eq]
    rw [ih (fun d hd => hw d (List.mem_cons_of_mem _ hd)) (c :: cur) z]
    simp

lemma findHashtags_hashTagLine (g : List (List Char)) (hg : SafeTags g) :
    findHashtags (hashTagLine g) = g := by
  induction g with
  | nil => rfl
  | cons tag rest ih =>
    obtain ⟨htne, htw⟩ := hg tag (List.mem_cons_self _ _)
    have hrest : SafeTags rest := fun t ht => hg t (List.mem_cons_of_mem _ ht)
    have hsp : isWordChar ' ' = false := rfl
    cases rest with
    | nil =>
      show hashAux none ('#' :: tag) = [tag]
      have h1 : hashAux none ('#' :: tag) = hashAux (some []) tag := rfl
      have h2 : hashAux (some []) tag = hashAux (some tag.reverse) [] := by
        simpa using hashAux_collect tag htw [] []
      rw [h1, h2]
      simp [hashAux, htne]
    | cons r rs =>
      have hH : hashTagLine (tag :: r :: rs) =
          '#' :: (tag ++ (' ' :: hashTagLine (r :: rs))) := by
        simp [hashTagLine, pyJoin]
      rw [hH]
      show hashAux none _ = _
      have h1 : hashAux none ('#' :: (tag ++ (' ' :: hashTagLine (r :: rs)))) =
          hashAux (some []) (tag ++ (' ' :: hashTagLine (r :: rs))) := rfl
      have h2 : hashAux (some []) (tag ++ (' ' :: hashTagLine (r :: rs))) =
          hashAux (some tag.reverse) (' ' :: hashTagLine (r :: rs)) := by
        simpa using hashAux_collect tag htw [] (' ' :: hashTagLine (r :: rs))
      have h3 : hashAux (some tag.reverse) (' ' :: hashTagLine (r :: rs)) =
          [tag.reverse.reverse] ++ hashAux none (hashTagLine (r :: rs)) := by
        simp [hashAux, hsp, htne, show ¬ ((' ' : Char) = '#') by decide]
      rw [h1, h2, h3]
      have h4 : hashAux none (hashTagLine (r :: rs)) = r :: rs := ih hrest
      rw [h4]
      simp

lemma alnum_ne_special (c : Char) (h : c.isAlphanum = true) :
    c ≠ '\n' ∧ c ≠ '#' ∧ c ≠ '*' ∧ c ≠ ':' ∧ c.isWhitespace = false := by
  refine ⟨?_, ?_, ?_, ?_, ?_⟩
  · rintro rfl; revert h; decide
  · rintro rfl; revert h; decide
  · rintro rfl; revert h; decide
  · rintro rfl; revert h; decide
  · exact wordChar_not_ws c (by simp [isWordChar, h])

lemma head_false_of_dropWhile_self (p : Char → Bool) (c : Char) (z : List Char)
    (h : (c :: z).dropWhile p = c :: z) : p c = false := by
  cases hp : p c
  · rfl
  · exfalso
    rw [List.dropWhile_cons, if_pos hp] at h
    have := len_dropWhile_le p z
    rw [h] at this
    simp at this

lemma dropWhile_eq_self_append (p : Char → Bool) (z w : List Char)
    (hz : z.dropWhile p = z) (hne : z ≠ []) :
    (z ++ w).dropWhile p = z ++ w := by
  cases z with
  | nil => exact absurd rfl hne
  | cons c z' =>
    have pc : p c = false := head_false_of_dropWhile_self p c z' hz
    simp [List.dropWhile_cons, pc]

lemma mem_hashTagLine (g : List (List Char)) (hg : SafeTags g) (c : Char)
    (hc : c ∈ hashTagLine g) : c = '#' ∨ c = ' ' ∨ isWordChar c = true := by
  induction g with
  | nil => simp [hashTagLine, pyJoin] at hc
  | cons tag rest ih =>
    have htw := (hg tag (List.mem_cons_self _ _)).2
    have hrest : SafeTags rest := fun t ht => hg t (List.mem_cons_of_mem _ ht)
    cases rest with
    | nil =>
      rcases List.mem_cons.mp hc with rfl | hc'
      · left; rfl
      · right; right; exact htw c hc'
    | cons r rs =>
      have hH : hashTagLine (tag :: r :: rs) =
          '#' :: (tag ++ (' ' :: hashTagLine (r :: rs))) := by
        simp [hashTagLine, pyJoin]
      rw [hH] at hc
      rcases List.mem_cons.mp hc with rfl | hc'
      · left; rfl
      · rcases List.mem_append.mp hc' with hm | hm
        · right; right; exact htw c hm
        · rcases List.mem_cons.mp hm with rfl | hm'
          · right; left; rfl
          · exact ih hrest hm'

lemma hashTagLine_concat_word (g : List (List Char)) (hg : SafeTags g)
    (hne : g ≠ []) :
    ∃ z c, hashTagLine g = z ++ [c] ∧ isWordChar c = true := by
  induction g with
  | nil => exact absurd rfl hne
  | cons tag rest ih =>
    obtain ⟨htne, htw⟩ := hg tag (List.mem_cons_self _ _)
    have hrest : SafeTags rest := fun t ht => hg t (List.mem_cons_of_mem _ ht)
    cases rest with
    | nil =>
      rcases List.eq_nil_or_concat tag with rfl | ⟨q, c, rfl⟩
      · exact absurd rfl htne
      · exact ⟨'#' :: q, c, by simp [hashTagLine, pyJoin],
          htw c (by simp)⟩
    | cons r rs =>
      rcases ih hrest (by simp) with ⟨z, c, hz, hc⟩
      refine ⟨'#' :: (tag ++ ' ' :: z), c, ?_, hc⟩
      have hH : hashTagLine (tag :: r :: rs) =
          '#' :: (tag ++ (' ' :: hashTagLine (r :: rs))) := by
        simp [hashTagLine, pyJoin]
      rw [hH, hz]
      simp

lemma stripStable_hashTagLine (g : List (List Char)) (hg : SafeTags g) :
    StripStable (hashTagLine g) := by
  cases g with
  | nil => exact ⟨rfl, rfl⟩
  | cons tag rest =>
    constructor
    · have hH : ∃ z, hashTagLine (tag :: rest) = '#' :: z := by
        cases rest with
        | nil => exact ⟨tag, by simp [hashTagLine, pyJoin]⟩
        | cons r rs =>
          exact ⟨tag ++ (' ' :: hashTagLine (r :: rs)), by
            simp [hashTagLine, pyJoin]⟩
      rcases hH with ⟨z, hz⟩
      rw [hz]
      simp [List.dropWhile_cons]
    · rcases hashTagLine_concat_word (tag :: rest) hg (by simp) with ⟨z, c, hz, hc⟩
      rw [hz, List.reverse_append]
      simp only [List.reverse_singleton, List.singleton_append]
      simp [List.dropWhile_cons, wordChar_not_ws c hc]

lemma noStrad_hashhash_tag (p tag : List Char) (htne : tag ≠ [])
    (htw : ∀ c ∈ tag, isWordChar c = true) :
    NoStrad ('#' :: '#' :: p) ('#' :: tag) := by
  have hnotin : '#' ∉ tag := by
    intro hmem
    have := htw '#' hmem
    simp [isWordChar] at this
  intro y i hi
  cases i with
  | zero =>
    intro hp
    rw [List.drop_zero, List.cons_append] at hp
    have h2 : ('#' :: p) <+: (tag ++ y) := (List.cons_prefix_cons.mp hp).2
    cases tag with
    | nil => exact htne rfl
    | cons w tag' =>
      rw [List.cons_append] at h2
      have hw : '#' = w := (List.cons_prefix_cons.mp h2).1
      exact hnotin (hw ▸ List.mem_cons_self _ _)
  | succ j =>
    have hj : j < tag.length := by simpa using Nat.lt_of_succ_lt_succ hi
    have := noStrad_of_head_notMem '#' ('#' :: p) tag hnotin y j hj
    simpa using this

lemma noStrad_hashhash_hashTagLine (p : List Char) (g : List (List Char))
    (hg : SafeTags g) : NoStrad ('#' :: '#' :: p) (hashTagLine g) := by
  induction g with
  | nil => exact noStrad_nil _
  | cons tag rest ih =>
    obtain ⟨htne, htw⟩ := hg tag (List.mem_cons_self _ _)
    have hrest : SafeTags rest := fun t ht => hg t (List.mem_cons_of_mem _ ht)
    cases rest with
    | nil =>
      have : hashTagLine [tag] = '#' :: tag := by simp [hashTagLine, pyJoin]
      rw [this]
      exact noStrad_hashhash_tag p tag htne htw
    | cons r rs =>
      have hH : hashTagLine (tag :: r :: rs) =
          ('#' :: tag) ++ (' ' :: hashTagLine (r :: rs)) := by
        simp [hashTagLine, pyJoin]
      rw [hH]
      refine noStrad_append _ _ _ (noStrad_hashhash_tag p tag htne htw) ?_
      exact noStrad_cons '#' ('#' :: p) ' ' _ (by decide) (ih hrest)

lemma subFind_concat (pat x y : List Char) (hx : NoStrad pat x)
    (hp : pat <+: y) : subFind pat (x ++ y) = some x.length := by
  rw [subFind_append_nostrad pat x y hx, subFind_of_prefix pat y hp]
  simp

lemma pyFind_zero_eq (s pat : List Char) (k : Nat)
    (h : subFind pat s = some k) : pyFind s pat 0 = (k : Int) := by
  simp [pyFind, pyIdx, h]

lemma pyFind_nat_start (s pat : List Char) (st k : Nat) (hst : st ≤ s.length)
    (h : subFind pat (s.drop st) = some k) :
    pyFind s pat (st : Int) = ((st + k : Nat) : Int) := by
  have hidx : pyIdx s.length (st : Int) = st := by
    simp [pyIdx, Nat.min_eq_left hst]
  simp [pyFind, hidx, h]

lemma listContains_eq_true (s pat : List Char) (k : Nat)
    (h : subFind pat s = some k) : listContains s pat = true := by
  simp [listContains, h]

lemma notMem_of_noSpecials_sharp (t : List Char) (ht : NoSpecials t) :
    '#' ∉ t := fun hm => (ht '#' hm).2.1 rfl

lemma notMem_of_noSpecials_star (t : List Char) (ht : NoSpecials t) :
    '*' ∉ t := fun hm => (ht '*' hm).2.2 rfl

lemma noStrad_topPattern_mkSection (p dg t s i : List Char)
    (g : List (List Char))
    (hmm : mismatchB ('#' :: '#' :: p) ("## Top ".data ++ dg ++ [':']) = true)
    (ht : NoSpecials t) (hs : NoSpecials s) (hi : NoSpecials i)
    (hg : SafeTags g) :
    NoStrad ('#' :: '#' :: p) (mkSection dg t s i g) := by
  have hre : mkSection dg t s i g =
      ("## Top ".data ++ dg ++ [':']) ++ ((' ' :: t) ++ ("\n\n".data ++
        (summaryMarker ++ (('\n' :: s) ++ ("\n\n".data ++ (insightsMarker ++
          (('\n' :: i) ++ ("\n\n".data ++ (techMarker ++
            (('\n' :: hashTagLine g) ++ "\n\n".data)))))))))) := by
    simp [mkSection]
  rw [hre]
  have hsp : ∀ (x : List Char), NoSpecials x → '#' ∉ (' ' :: x) := by
    intro x hx hm
    rcases List.mem_cons.mp hm with h | h
    · exact absurd h (by decide)
    · exact notMem_of_noSpecials_sharp x hx h
  have hnl : ∀ (x : List Char), NoSpecials x → '#' ∉ ('\n' :: x) := by
    intro x hx hm
    rcases List.mem_cons.mp hm with h | h
    · exact absurd h (by decide)
    · exact notMem_of_noSpecials_sharp x hx h
  refine noStrad_append _ _ _ (noStrad_of_mismatchB _ _ hmm) ?_
  refine noStrad_append _ _ _ (noStrad_of_head_notMem _ _ _ (hsp t ht)) ?_
  refine noStrad_append _ _ _ (noStrad_of_head_notMem _ _ _ (by decide)) ?_
  refine noStrad_append _ _ _ (noStrad_of_head_notMem _ _ _ (by decide)) ?_
  refine noStrad_append _ _ _ (noStrad_of_head_notMem _ _ _ (hnl s hs)) ?_
  refine noStrad_append _ _ _ (noStrad_of_head_notMem _ _ _ (by decide)) ?_
  refine noStrad_append _ _ _ (noStrad_of_head_notMem _ _ _ (by decide)) ?_
  refine noStrad_append _ _ _ (noStrad_of_head_notMem _ _ _ (hnl i hi)) ?_
  refine noStrad_append _ _ _ (noStrad_of_head_notMem _ _ _ (by decide)) ?_
  refine noStrad_append _ _ _ (noStrad_of_head_notMem _ _ _ (by decide)) ?_
  refine noStrad_append _ _ _ ?_ (noStrad_of_head_notMem _ _ _ (by decide))
  exact noStrad_cons '#' ('#' :: p) '\n' _ (by decide)
    (noStrad_hashhash_hashTagLine p g hg)

lemma mkSection_head_chunk (dg t s i : List Char) (g : List (List Char)) :
    mkSection dg t s i g =
      ("## Top ".data ++ dg ++ [':']) ++
        ((' ' :: t) ++ ("\n\n".data ++ (summaryMarker ++ (('\n' :: s) ++
          ("\n\n".data ++ (insightsMarker ++ (('\n' :: i) ++ ("\n\n".data ++
            (techMarker ++ (('\n' :: hashTagLine g) ++ "\n\n".data)))))))))) := by
  simp [mkSection]

lemma pyIdx_natCast (n k : Nat) (h : k ≤ n) : pyIdx n (k : Int) = k := by
  unfold pyIdx
  rw [if_neg (by omega)]
  omega

lemma sections_mkMarkdown (t1 s1 i1 t2 s2 i2 t3 s3 i3 : List Char)
    (g1 g2 g3 : List (List Char))
    (ht1 : NoSpecials t1) (hs1 : NoSpecials s1) (hi1 : NoSpecials i1)
    (hg1 : SafeTags g1)
    (ht2 : NoSpecials t2) (hs2 : NoSpecials s2) (hi2 : NoSpecials i2)
    (hg2 : SafeTags g2)
    (ht3 : NoSpecials t3) (hs3 : NoSpecials s3) (hi3 : NoSpecials i3)
    (hg3 : SafeTags g3) :
    [1, 2, 3].filterMap
        (sectionSlice (mkMarkdown t1 s1 i1 g1 t2 s2 i2 g2 t3 s3 i3 g3)) =
      [mkSection "1".data t1 s1 i1 g1, mkSection "2".data t2 s2 i2 g2,
        mkSection "3".data t3 s3 i3 g3] := by
  set A := mkSection "1".data t1 s1 i1 g1 with hA
  set B := mkSection "2".data t2 s2 i2 g2 with hB
  set C := mkSection "3".data t3 s3 i3 g3 with hC
  have hmd : mkMarkdown t1 s1 i1 g1 t2 s2 i2 g2 t3 s3 i3 g3 = A ++ (B ++ C) := by
    simp [mkMarkdown, hA, hB, hC]
  set md := mkMarkdown t1 s1 i1 g1 t2 s2 i2 g2 t3 s3 i3 g3 with hmddef
  have htp1 : topPattern 1 = "## Top ".data ++ "1".data ++ [':'] := by decide
  have htp2 : topPattern 2 = '#' :: '#' ::
      (' ' :: 'T' :: 'o' :: 'p' :: ' ' :: '2' :: ':' :: []) := by decide
  have htp3 : topPattern 3 = '#' :: '#' ::
      (' ' :: 'T' :: 'o' :: 'p' :: ' ' :: '3' :: ':' :: []) := by decide
  -- prefix facts
  have hpre1 : topPattern 1 <+: md := by
    rw [hmd, hA, mkSection_head_chunk, htp1, List.append_assoc]
    exact List.prefix_append _ _
  have hpre2 : topPattern 2 <+: (B ++ C) := by
    have h2 : topPattern 2 = "## Top ".data ++ "2".data ++ [':'] := by decide
    rw [hB, mkSection_head_chunk, h2, List.append_assoc]
    exact List.prefix_append _ _
  have hpre3 : topPattern 3 <+: C := by
    have h3 : topPattern 3 = "## Top ".data ++ "3".data ++ [':'] := by decide
    rw [hC, mkSection_head_chunk, h3]
    exact ⟨_, rfl⟩
  -- NoStrad facts
  have hnsA2 : NoStrad (topPattern 2) A := by
    rw [htp2, hA]
    exact noStrad_topPattern_mkSection _ _ _ _ _ _ (by decide) ht1 hs1 hi1 hg1
  have hnsA3 : NoStrad (topPattern 3) A := by
    rw [htp3, hA]
    exact noStrad_topPattern_mkSection _ _ _ _ _ _ (by decide) ht1 hs1 hi1 hg1
  have hnsB3 : NoStrad (topPattern 3) B := by
    rw [htp3, hB]
    exact noStrad_topPattern_mkSection _ _ _ _ _ _ (by decide) ht2 hs2 hi2 hg2
  -- subFind computations
  have hfind1 : subFind (topPattern 1) md = some 0 := subFind_of_prefix _ _ hpre1
  have hfind2 : subFind (topPattern 2) md = some A.length := by
    rw [hmd]
    exact subFind_concat _ _ _ hnsA2 hpre2
  have hfind3 : subFind (topPattern 3) md = some (A.length + B.length) := by
    have hmd' : md = (A ++ B) ++ C := by rw [hmd, List.append_assoc]
    rw [hmd']
    have := subFind_concat (topPattern 3) (A ++ B) C
      (noStrad_append _ _ _ hnsA3 hnsB3) hpre3
    simpa using this
  -- lengths
  have hlen : md.length = A.length + B.length + C.length := by
    rw [hmd]; simp [Nat.add_assoc]
  -- slice 1
  have hsl1 : sectionSlice md 1 = some A := by
    simp only [sectionSlice]
    rw [listContains_eq_true _ _ _ hfind1, if_pos rfl]
    rw [pyFind_zero_eq _ _ _ hfind1, if_pos (by norm_num)]
    rw [pyFind_zero_eq _ _ _ hfind2]
    rw [if_neg (by omega)]
    refine congrArg some ?_
    show pySlice md ((0 : Nat) : Int) ((A.length : Nat) : Int) = A
    unfold pySlice
    rw [pyIdx_natCast _ _ (by omega), pyIdx_natCast _ _ (by omega)]
    rw [List.drop_zero, hmd, List.take_left]
  -- slice 2
  have hsl2 : sectionSlice md 2 = some B := by
    simp only [sectionSlice]
    rw [listContains_eq_true _ _ _ hfind2, if_pos rfl]
    rw [pyFind_zero_eq _ _ _ hfind2, if_pos (by norm_num)]
    rw [pyFind_zero_eq _ _ _ hfind3]
    rw [if_neg (by omega)]
    refine congrArg some ?_
    show pySlice md ((A.length : Nat) : Int) ((A.length + B.length : Nat) : Int) = B
    unfold pySlice
    rw [pyIdx_natCast _ _ (by omega), pyIdx_natCast _ _ (by omega)]
    have hmd' : md = (A ++ B) ++ C := by rw [hmd, List.append_assoc]
    rw [hmd', show A.length + B.length = (A ++ B).length by simp,
      List.take_left, List.drop_left]
  -- slice 3
  have hsl3 : sectionSlice md 3 = some C := by
    simp only [sectionSlice]
    rw [listContains_eq_true _ _ _ hfind3, if_pos rfl]
    rw [pyFind_zero_eq _ _ _ hfind3, if_neg (by norm_num)]
    refine congrArg some ?_
    show pySlice md ((A.length + B.length : Nat) : Int) ((md.length : Nat) : Int) = C
    unfold pySlice
    rw [pyIdx_natCast _ _ (by omega), pyIdx_natCast _ _ (by omega)]
    rw [List.take_length]
    have hmd' : md = (A ++ B) ++ C := by rw [hmd, List.append_assoc]
    rw [hmd', show A.length + B.length = (A ++ B).length by simp,
      List.drop_left]
  simp [List.filterMap_cons, hsl1, hsl2, hsl3]

lemma mkSection_decomp (dg t s i : List Char) (g : List (List Char)) :
    mkSection dg t s i g =
      secHead dg t ++ (summaryMarker ++ (wrapNL s ++ (insightsMarker ++
        (wrapNL i ++ (techMarker ++ wrapNL (hashTagLine g)))))) := by
  simp [mkSection, secHead, wrapNL]

lemma dg_safe (dg : List Char) (hdg2 : ∀ c ∈ dg, c.isAlphanum = true) :
    ∀ c ∈ dg, c ≠ '\n' ∧ c ≠ '#' ∧ c ≠ '*' ∧ c ≠ ':' ∧ c.isWhitespace = false :=
  fun c hc => alnum_ne_special c (hdg2 c hc)

lemma parseTitle_mkSection (dg t s i : List Char) (g : List (List Char))
    (hdg1 : dg ≠ []) (hdg2 : ∀ c ∈ dg, c.isAlphanum = true)
    (ht : SafeTitle t) :
    pyStrip (pyReplace ":".data [] (pyReplace "## Top".data []
      ((pySplit '\n' (mkSection dg t s i g)).headD []))) = dg ++ ' ' :: t := by
  obtain ⟨⟨htn, hts⟩, htne, htc⟩ := ht
  -- first line
  have hline : (pySplit '\n' (mkSection dg t s i g)).headD [] =
      "## Top ".data ++ (dg ++ (':' :: ' ' :: t)) := by
    rw [pySplit_headD]
    have hre : mkSection dg t s i g =
        ("## Top ".data ++ (dg ++ (':' :: ' ' :: t))) ++
          ('\n' :: ('\n' :: (summaryMarker ++ (wrapNL s ++ (insightsMarker ++
            (wrapNL i ++ (techMarker ++ wrapNL (hashTagLine g)))))))) := by
      rw [mkSection_decomp]
      simp [secHead]
    rw [hre, takeWhile_append_all _ _ _ ?hall]
    case hall =>
      intro c hc
      rcases List.mem_append.mp hc with hm | hm
      · exact (show ∀ x ∈ "## Top ".data, decide (x ≠ '\n') = true by decide) c hm
      · rcases List.mem_append.mp hm with hm' | hm'
        · simp [(dg_safe dg hdg2 c hm').1]
        · rcases List.mem_cons.mp hm' with rfl | hm''
          · decide
          · rcases List.mem_cons.mp hm'' with rfl | hm'''
            · decide
            · simp [(htn c hm''').1]
    simp [List.takeWhile_cons]
  rw [hline]
  -- strip the "## Top" prefix
  have hrep1 : pyReplace "## Top".data []
      ("## Top ".data ++ (dg ++ (':' :: ' ' :: t))) =
      replAux "## Top".data [] 0 (' ' :: (dg ++ (':' :: ' ' :: t))) := rfl
  rw [hrep1, replAux_notMem _ _ _ _ ?hnosharp]
  case hnosharp =>
    intro hm
    rcases List.mem_cons.mp hm with h | h
    · exact absurd h (by decide)
    · rcases List.mem_append.mp h with hm' | hm'
      · exact (dg_safe dg hdg2 _ hm').2.1 rfl
      · rcases List.mem_cons.mp hm' with h' | h'
        · exact absurd h' (by decide)
        · rcases List.mem_cons.mp h' with h'' | h''
          · exact absurd h'' (by decide)
          · exact (htn _ h'').2.1 rfl
  -- remove the colons
  have hrep2 : pyReplace ":".data [] (' ' :: (dg ++ (':' :: ' ' :: t))) =
      ' ' :: (dg ++ (' ' :: t)) := by
    have hshape : ' ' :: (dg ++ (':' :: ' ' :: t)) =
        (' ' :: dg) ++ (':' :: (' ' :: t)) := by simp
    show replAux ":".data [] 0 (' ' :: (dg ++ (':' :: ' ' :: t))) = _
    rw [hshape, replAux_append_notMem _ _ _ _ _ ?hnocolon]
    case hnocolon =>
      intro hm
      rcases List.mem_cons.mp hm with h | h
      · exact absurd h (by decide)
      · exact (dg_safe dg hdg2 _ h).2.2.2.1 rfl
    have hmatch : replAux ":".data [] 0 (':' :: (' ' :: t)) =
        replAux ":".data [] 0 (' ' :: t) := rfl
    rw [hmatch, replAux_notMem _ _ _ _ ?hnocolon2]
    case hnocolon2 =>
      intro hm
      rcases List.mem_cons.mp hm with h | h
      · exact absurd h (by decide)
      · exact htc _ h rfl
    simp
  rw [hrep2]
  -- strip
  have hshape2 : ' ' :: (dg ++ (' ' :: t)) =
      [' '] ++ (dg ++ (' ' :: t)) ++ [] := by simp
  rw [hshape2, pyStrip_wrap _ _ _ (by decide) (by simp) ?hstable]
  case hstable =>
    constructor
    · cases hd : dg with
      | nil => exact absurd hd hdg1
      | cons d dg' =>
        have : d.isWhitespace = false :=
          (dg_safe dg hdg2 d (hd ▸ List.mem_cons_self _ _)).2.2.2.2
        simp [List.dropWhile_cons, this]
    · have hrev : (dg ++ (' ' :: t)).reverse =
          t.reverse ++ (' ' :: dg.reverse) := by
        rw [List.reverse_append, List.reverse_cons, List.append_assoc]
        rfl
      rw [hrev]
      refine dropWhile_eq_self_append _ _ _ hts.2 ?_
      simpa using htne

lemma noStrad_star_chunk (p x : List Char) (hx : NoSpecials x) :
    NoStrad ('*' :: p) (x ++ "\n\n".data) :=
  noStrad_append _ _ _
    (noStrad_of_head_notMem _ _ _ (notMem_of_noSpecials_star x hx))
    (noStrad_of_head_notMem _ _ _ (by decide))

lemma noStrad_star_secHead (p dg t : List Char)
    (hdg2 : ∀ c ∈ dg, c.isAlphanum = true) (htn : NoSpecials t) :
    NoStrad ('*' :: p) (secHead dg t) := by
  unfold secHead
  refine noStrad_append _ _ _ ?_ ?_
  · refine noStrad_append _ _ _ (noStrad_append _ _ _
      (noStrad_of_head_notMem _ _ _ (by decide))
      (noStrad_of_head_notMem _ _ _
        (fun hm => (dg_safe dg hdg2 _ hm).2.2.1 rfl))) ?_
    exact noStrad_of_head_notMem _ _ _ (by decide)
  · refine noStrad_append _ _ _ ?_ (noStrad_of_head_notMem _ _ _ (by decide))
    refine noStrad_of_head_notMem _ _ _ ?_
    intro hm
    rcases List.mem_cons.mp hm with h | h
    · exact absurd h (by decide)
    · exact (htn _ h).2.2 rfl

lemma noStrad_star_wrapNL (p x : List Char) (hx : NoSpecials x) :
    NoStrad ('*' :: p) (wrapNL x) := by
  unfold wrapNL
  refine noStrad_append _ _ _ ?_ (noStrad_of_head_notMem _ _ _ (by decide))
  refine noStrad_of_head_notMem _ _ _ ?_
  intro hm
  rcases List.mem_cons.mp hm with h | h
  · exact absurd h (by decide)
  · exact (hx _ h).2.2 rfl

lemma subFind_SM (dg t s i : List Char) (g : List (List Char))
    (hdg2 : ∀ c ∈ dg, c.isAlphanum = true) (htn : NoSpecials t) :
    subFind summaryMarker (mkSection dg t s i g) =
      some (secHead dg t).length := by
  rw [mkSection_decomp]
  refine subFind_concat _ _ _ ?_ (List.prefix_append _ _)
  rw [show summaryMarker = '*' :: "*핵심 요약:**".data by decide]
  exact noStrad_star_secHead _ dg t hdg2 htn

lemma subFind_IM (dg t s i : List Char) (g : List (List Char))
    (hdg2 : ∀ c ∈ dg, c.isAlphanum = true) (htn : NoSpecials t)
    (hsn : NoSpecials s) :
    subFind insightsMarker (mkSection dg t s i g) =
      some (secHead dg t ++ (summaryMarker ++ wrapNL s)).length := by
  have hre : mkSection dg t s i g =
      (secHead dg t ++ (summaryMarker ++ wrapNL s)) ++
        (insightsMarker ++ (wrapNL i ++ (techMarker ++ wrapNL (hashTagLine g)))) := by
    rw [mkSection_decomp]
    simp
  rw [hre]
  refine subFind_concat _ _ _ ?_ (List.prefix_append _ _)
  have hgrp : secHead dg t ++ (summaryMarker ++ wrapNL s) =
      secHead dg t ++ ((summaryMarker ++ ['\n']) ++ (s ++ "\n\n".data)) := by
    simp [wrapNL]
  rw [hgrp, show insightsMarker = '*' :: "*인사이트:**".data by decide]
  refine noStrad_append _ _ _ (noStrad_star_secHead _ dg t hdg2 htn) ?_
  refine noStrad_append _ _ _ ?_ (noStrad_star_chunk _ s hsn)
  rw [show ('*' : Char) :: "*인사이트:**".data = insightsMarker by decide]
  exact noStrad_of_mismatchB _ _ (by decide)

lemma subFind_TM (dg t s i : List Char) (g : List (List Char))
    (hdg2 : ∀ c ∈ dg, c.isAlphanum = true) (htn : NoSpecials t)
    (hsn : NoSpecials s) (hin : NoSpecials i) :
    subFind techMarker (mkSection dg t s i g) =
      some ((secHead dg t ++ (summaryMarker ++ wrapNL s)) ++
        (insightsMarker ++ wrapNL i)).length := by
  have hre : mkSection dg t s i g =
      ((secHead dg t ++ (summaryMarker ++ wrapNL s)) ++
        (insightsMarker ++ wrapNL i)) ++
        (techMarker ++ wrapNL (hashTagLine g)) := by
    rw [mkSection_decomp]
    simp
  rw [hre]
  refine subFind_concat _ _ _ ?_ (List.prefix_append _ _)
  have hgrp : (secHead dg t ++ (summaryMarker ++ wrapNL s)) ++
      (insightsMarker ++ wrapNL i) =
      secHead dg t ++ (((summaryMarker ++ ['\n']) ++ (s ++ "\n\n".data)) ++
        ((insightsMarker ++ ['\n']) ++ (i ++ "\n\n".data))) := by
    simp [wrapNL]
  rw [hgrp, show techMarker = '*' :: "*연관 기술:**".data by decide]
  refine noStrad_append _ _ _ (noStrad_star_secHead _ dg t hdg2 htn) ?_
  refine noStrad_append _ _ _ ?_ ?_
  · refine noStrad_append _ _ _ ?_ (noStrad_star_chunk _ s hsn)
    rw [show ('*' : Char) :: "*연관 기술:**".data = techMarker by decide]
    exact noStrad_of_mismatchB _ _ (by decide)
  · refine noStrad_append _ _ _ ?_ (noStrad_star_chunk _ i hin)
    rw [show ('*' : Char) :: "*연관 기술:**".data = techMarker by decide]
    exact noStrad_of_mismatchB _ _ (by decide)

lemma subFind_IM_inner (dg t s i : List Char) (g : List (List Char))
    (hsn : NoSpecials s) :
    subFind insightsMarker
        ((mkSection dg t s i g).drop
          ((secHead dg t).length + summaryMarker.length)) =
      some (wrapNL s).length := by
  have hre : mkSection dg t s i g =
      (secHead dg t ++ summaryMarker) ++
        (wrapNL s ++ (insightsMarker ++
          (wrapNL i ++ (techMarker ++ wrapNL (hashTagLine g))))) := by
    rw [mkSection_decomp]
    simp
  rw [hre, show (secHead dg t).length + summaryMarker.length =
    (secHead dg t ++ summaryMarker).length by simp, List.drop_left]
  refine subFind_concat _ _ _ ?_ (List.prefix_append _ _)
  rw [show insightsMarker = '*' :: "*인사이트:**".data by decide]
  exact noStrad_star_wrapNL _ s hsn

lemma subFind_TM_inner (dg t s i : List Char) (g : List (List Char))
    (hin : NoSpecials i) :
    subFind techMarker
        ((mkSection dg t s i g).drop
          ((secHead dg t ++ (summaryMarker ++ wrapNL s)).length +
            insightsMarker.length)) =
      some (wrapNL i).length := by
  have hre : mkSection dg t s i g =
      ((secHead dg t ++ (summaryMarker ++ wrapNL s)) ++ insightsMarker) ++
        (wrapNL i ++ (techMarker ++ wrapNL (hashTagLine g))) := by
    rw [mkSection_decomp]
    simp
  rw [hre, show (secHead dg t ++ (summaryMarker ++ wrapNL s)).length +
    insightsMarker.length =
    ((secHead dg t ++ (summaryMarker ++ wrapNL s)) ++ insightsMarker).length
    by simp; omega, List.drop_left]
  refine subFind_concat _ _ _ ?_ (List.prefix_append _ _)
  rw [show techMarker = '*' :: "*연관 기술:**".data by decide]
  exact noStrad_star_wrapNL _ i hin

lemma parseSection_mkSection (dg t s i : List Char) (g : List (List Char))
    (hdg1 : dg ≠ []) (hdg2 : ∀ c ∈ dg, c.isAlphanum = true)
    (ht : SafeTitle t) (hs : SafeText s) (hi : SafeText i) (hg : SafeTags g) :
    parseSection [] (mkSection dg t s i g) =
      some ⟨dg ++ ' ' :: t, some s, some i, g, none⟩ := by
  obtain ⟨hsn, hss⟩ := hs
  obtain ⟨hin, his⟩ := hi
  have htn : NoSpecials t := ht.1.1
  have hfSM := subFind_SM dg t s i g hdg2 htn
  have hfIM := subFind_IM dg t s i g hdg2 htn hsn
  have hfTM := subFind_TM dg t s i g hdg2 htn hsn hin
  have hcSM : listContains (mkSection dg t s i g) summaryMarker = true :=
    listContains_eq_true _ _ _ hfSM
  have hcIM : listContains (mkSection dg t s i g) insightsMarker = true :=
    listContains_eq_true _ _ _ hfIM
  have hcTM : listContains (mkSection dg t s i g) techMarker = true :=
    listContains_eq_true _ _ _ hfTM
  have hlenS : (mkSection dg t s i g).length =
      (secHead dg t).length + (summaryMarker.length + ((wrapNL s).length +
        (insightsMarker.length + ((wrapNL i).length + (techMarker.length +
          (wrapNL (hashTagLine g)).length))))) := by
    rw [mkSection_decomp]
    simp
  simp only [parseSection]
  rw [parseTitle_mkSection dg t s i g hdg1 hdg2 ht]
  rw [if_neg (by simp)]
  refine congrArg some ?_
  have hsummary :
      (if listContains (mkSection dg t s i g) summaryMarker = true then
        some (pyStrip (pySlice (mkSection dg t s i g)
          (pyFind (mkSection dg t s i g) summaryMarker 0 +
            ↑summaryMarker.length)
          (if pyFind (mkSection dg t s i g) insightsMarker
              (pyFind (mkSection dg t s i g) summaryMarker 0 +
                ↑summaryMarker.length) = -1 then
            pyFind (mkSection dg t s i g) techMarker
              (pyFind (mkSection dg t s i g) summaryMarker 0 +
                ↑summaryMarker.length)
          else
            pyFind (mkSection dg t s i g) insightsMarker
              (pyFind (mkSection dg t s i g) summaryMarker 0 +
                ↑summaryMarker.length))))
      else none) = some s := by
    rw [hcSM, if_pos rfl]
    refine congrArg some ?_
    rw [pyFind_zero_eq _ _ _ hfSM]
    rw [show (((secHead dg t).length : Int) + (summaryMarker.length : Int)) =
      (((secHead dg t).length + summaryMarker.length : Nat) : Int) by push_cast; ring]
    rw [pyFind_nat_start _ _ _ _ (by omega)
      (subFind_IM_inner dg t s i g hsn)]
    rw [if_neg (by omega)]
    have hslice : pySlice (mkSection dg t s i g)
        (((secHead dg t).length + summaryMarker.length : Nat) : Int)
        ((((secHead dg t).length + summaryMarker.length) +
          (wrapNL s).length : Nat) : Int) = wrapNL s := by
      unfold pySlice
      rw [pyIdx_natCast _ _ (by omega), pyIdx_natCast _ _ (by omega)]
      have hre2 : mkSection dg t s i g =
          ((secHead dg t ++ summaryMarker) ++ wrapNL s) ++
            (insightsMarker ++ (wrapNL i ++
              (techMarker ++ wrapNL (hashTagLine g)))) := by
        rw [mkSection_decomp]
        simp
      rw [hre2, show ((secHead dg t).length + summaryMarker.length) +
        (wrapNL s).length =
        ((secHead dg t ++ summaryMarker) ++ wrapNL s).length by simp; omega,
        List.take_left, show (secHead dg t).length + summaryMarker.length =
        (secHead dg t ++ summaryMarker).length by simp, List.drop_left]
    rw [hslice]
    rw [show wrapNL s = ['\n'] ++ s ++ "\n\n".data by simp [wrapNL]]
    exact pyStrip_wrap _ _ _ (by decide) (by decide) hss
  have hinsights :
      (if listContains (mkSection dg t s i g) insightsMarker = true then
        some (pyStrip (pySlice (mkSection dg t s i g)
          (pyFind (mkSection dg t s i g) insightsMarker 0 +
            ↑insightsMarker.length)
          (if pyFind (mkSection dg t s i g) techMarker
              (pyFind (mkSection dg t s i g) insightsMarker 0 +
                ↑insightsMarker.length) = -1 then
            ((mkSection dg t s i g).length : Int)
          else
            pyFind (mkSection dg t s i g) techMarker
              (pyFind (mkSection dg t s i g) insightsMarker 0 +
                ↑insightsMarker.length))))
      else none) = some i := by
    rw [hcIM, if_pos rfl]
    refine congrArg some ?_
    rw [pyFind_zero_eq _ _ _ hfIM]
    rw [show (((secHead dg t ++ (summaryMarker ++ wrapNL s)).length : Int) +
      (insightsMarker.length : Int)) =
      (((secHead dg t ++ (summaryMarker ++ wrapNL s)).length +
        insightsMarker.length : Nat) : Int) by push_cast; ring]
    rw [pyFind_nat_start _ _ _ _ (by simp; omega)
      (subFind_TM_inner dg t s i g hin)]
    rw [if_neg (by omega)]
    have hslice : pySlice (mkSection dg t s i g)
        (((secHead dg t ++ (summaryMarker ++ wrapNL s)).length +
          insightsMarker.length : Nat) : Int)
        ((((secHead dg t ++ (summaryMarker ++ wrapNL s)).length +
          insightsMarker.length) + (wrapNL i).length : Nat) : Int) =
        wrapNL i := by
      unfold pySlice
      rw [pyIdx_natCast _ _ (by simp; omega), pyIdx_natCast _ _ (by simp; omega)]
      have hre3 : mkSection dg t s i g =
          (((secHead dg t ++ (summaryMarker ++ wrapNL s)) ++ insightsMarker) ++
            wrapNL i) ++ (techMarker ++ wrapNL (hashTagLine g)) := by
        rw [mkSection_decomp]
        simp
      rw [hre3, show ((secHead dg t ++ (summaryMarker ++ wrapNL s)).length +
        insightsMarker.length) + (wrapNL i).length =
        (((secHead dg t ++ (summaryMarker ++ wrapNL s)) ++ insightsMarker) ++
          wrapNL i).length by simp; omega,
        List.take_left, show (secHead dg t ++ (summaryMarker ++ wrapNL s)).length +
        insightsMarker.length =
        ((secHead dg t ++ (summaryMarker ++ wrapNL s)) ++ insightsMarker).length
        by simp; omega, List.drop_left]
    rw [hslice]
    rw [show wrapNL i = ['\n'] ++ i ++ "\n\n".data by simp [wrapNL]]
    exact pyStrip_wrap _ _ _ (by decide) (by decide) his
  have htech :
      (if listContains (mkSection dg t s i g) techMarker = true then
        findHashtags (pyStrip (pySliceFrom (mkSection dg t s i g)
          (pyFind (mkSection dg t s i g) techMarker 0 + ↑techMarker.length)))
      else []) = g := by
    rw [hcTM, if_pos rfl]
    rw [pyFind_zero_eq _ _ _ hfTM]
    rw [show ((((secHead dg t ++ (summaryMarker ++ wrapNL s)) ++
      (insightsMarker ++ wrapNL i)).length : Int) +
      (techMarker.length : Int)) =
      ((((secHead dg t ++ (summaryMarker ++ wrapNL s)) ++
        (insightsMarker ++ wrapNL i)).length +
        techMarker.length : Nat) : Int) by push_cast; ring]
    have hdrop : pySliceFrom (mkSection dg t s i g)
        ((((secHead dg t ++ (summaryMarker ++ wrapNL s)) ++
          (insightsMarker ++ wrapNL i)).length +
          techMarker.length : Nat) : Int) = wrapNL (hashTagLine g) := by
      unfold pySliceFrom
      rw [pyIdx_natCast _ _ (by simp; omega)]
      have hre4 : mkSection dg t s i g =
          (((secHead dg t ++ (summaryMarker ++ wrapNL s)) ++
            (insightsMarker ++ wrapNL i)) ++ techMarker) ++
            wrapNL (hashTagLine g) := by
        rw [mkSection_decomp]
        simp
      rw [hre4, show ((secHead dg t ++ (summaryMarker ++ wrapNL s)) ++
        (insightsMarker ++ wrapNL i)).length + techMarker.length =
        ((((secHead dg t ++ (summaryMarker ++ wrapNL s)) ++
          (insightsMarker ++ wrapNL i)) ++ techMarker)).length by simp; omega,
        List.drop_left]
    rw [hdrop]
    rw [show wrapNL (hashTagLine g) =
      ['\n'] ++ hashTagLine g ++ "\n\n".data by simp [wrapNL]]
    rw [pyStrip_wrap _ _ _ (by decide) (by decide)
      (stripStable_hashTagLine g hg)]
    exact findHashtags_hashTagLine g hg
  rw [hsummary, hinsights, htech]
  simp

/-- C2 counterexample: on a well-formed three-section markdown built from
titles `Alpha`, `Beta`, `Gamma`, the parser's recovered titles are
`1 Alpha`, `2 Beta`, `3 Gamma` — the header prefix `## Top` and the colon
are stripped, but the section number is retained — so the parsed titles do
not equal the constructed titles. -/
theorem C2_counterexample :
    (parse_top3_news (mkMarkdown "Alpha".data "S1".data "I1".data ["AI".data]
        "Beta".data "S2".data "I2".data ["DB".data]
        "Gamma".data "S3".data "I3".data ["ML".data]) []).map
        (fun item => item.title) =
      ["1 Alpha".data, "2 Beta".data, "3 Gamma".data] ∧
      ["1 Alpha".data, "2 Beta".data, "3 Gamma".data] ≠
        ["Alpha".data, "Beta".data, "Gamma".data] := by
  constructor
  · set_option maxRecDepth 40000 in decide
  · decide

/-- C2 (amended): for every markdown built of exactly 3 well-formed
`## Top k:` sections with safe title/summary/insights texts and word-token
hashtags, `parse_top3_news` recovers exactly 3 items whose summary,
insights and related-tech fields equal the constructed inputs (hashtag
tokens in order), and whose title is the constructed title with the
`## Top` prefix and colon stripped but the section number retained:
`"k " ++ title`. -/
theorem C2_markdown_roundtrip_amended
    (t1 s1 i1 t2 s2 i2 t3 s3 i3 : List Char) (g1 g2 g3 : List (List Char))
    (ht1 : SafeTitle t1) (hs1 : SafeText s1) (hi1 : SafeText i1)
    (hg1 : SafeTags g1)
    (ht2 : SafeTitle t2) (hs2 : SafeText s2) (hi2 : SafeText i2)
    (hg2 : SafeTags g2)
    (ht3 : SafeTitle t3) (hs3 : SafeText s3) (hi3 : SafeText i3)
    (hg3 : SafeTags g3) :
    parse_top3_news (mkMarkdown t1 s1 i1 g1 t2 s2 i2 g2 t3 s3 i3 g3) [] =
      [⟨'1' :: ' ' :: t1, some s1, some i1, g1, none⟩,
       ⟨'2' :: ' ' :: t2, some s2, some i2, g2, none⟩,
       ⟨'3' :: ' ' :: t3, some s3, some i3, g3, none⟩] := by
  unfold parse_top3_news
  rw [sections_mkMarkdown t1 s1 i1 t2 s2 i2 t3 s3 i3 g1 g2 g3
    ht1.1.1 hs1.1 hi1.1 hg1 ht2.1.1 hs2.1 hi2.1 hg2 ht3.1.1 hs3.1 hi3.1 hg3]
  have h1 := parseSection_mkSection "1".data t1 s1 i1 g1 (by decide)
    (by decide) ht1 hs1 hi1 hg1
  have h2 := parseSection_mkSection "2".data t2 s2 i2 g2 (by decide)
    (by decide) ht2 hs2 hi2 hg2
  have h3 := parseSection_mkSection "3".data t3 s3 i3 g3 (by decide)
    (by decide) ht3 hs3 hi3 hg3
  simp only [List.filterMap_cons, h1, h2, h3, List.filterMap_nil]
  rfl

/-- C2 witness: the amended round-trip at concrete section contents. -/
theorem C2_markdown_roundtrip_amended_witness :
    parse_top3_news (mkMarkdown "Alpha".data "S1".data "I1".data ["AI".data]
        "Beta".data "S2".data "I2".data ["DB".data]
        "Gamma".data "S3".data "I3".data ["ML".data]) [] =
      [⟨'1' :: ' ' :: "Alpha".data, some "S1".data, some "I1".data,
        ["AI".data], none⟩,
       ⟨'2' :: ' ' :: "Beta".data, some "S2".data, some "I2".data,
        ["DB".data], none⟩,
       ⟨'3' :: ' ' :: "Gamma".data, some "S3".data, some "I3".data,
        ["ML".data], none⟩] :=
  C2_markdown_roundtrip_amended "Alpha".data "S1".data "I1".data
    "Beta".data "S2".data "I2".data "Gamma".data "S3".data "I3".data
    ["AI".data] ["DB".data] ["ML".data]
    (by decide) (by decide) (by decide) (by decide)
    (by decide) (by decide) (by decide) (by decide)
    (by decide) (by decide) (by decide) (by decide)
